import Mathlib

/-!
Verification of the Kent Denver events scripts (sports-emails/generate_games.py
and digital-signage/generate_signage.py) against their specification.

Python strings are embedded as `List Char`; Python date objects as a `Date`
structure of year/month/day fields, ordered and iterated through their
proleptic-Gregorian ordinal (`toOrd`, the value of Python's
`date.toordinal()`), which is exactly how Python's `datetime` compares and
steps dates.  Fallible parsing (`datetime.strptime` inside try/except) is
embedded as `Option`-returning functions; network fetches are an input to
the embedded functions (`Option`-valued environment: `none` models a fetch
that failed or found no table).
-/

/-- Convenience: the character list of a string literal. -/
def strL : String → List Char := String.data

/-- Whether the first list is a leading segment of the second. -/
def leadsWith : List Char → List Char → Bool
  | [], _ => true
  | _ :: _, [] => false
  | c :: cs, h :: hs => c == h && leadsWith cs hs

/-- Python's substring test `needle in hay`. -/
def containsSub (hay needle : List Char) : Bool :=
  leadsWith needle hay ||
    (match hay with
     | [] => false
     | _ :: t => containsSub t needle)

/-- Python's `str.lower()`. -/
def pyLower (l : List Char) : List Char := l.map Char.toLower

/-- Python's `str.strip()`: drop leading and trailing whitespace. -/
def pyStrip (l : List Char) : List Char :=
  ((l.dropWhile Char.isWhitespace).reverse.dropWhile Char.isWhitespace).reverse

/-- Python's `str.isdigit()` (restricted to ASCII digits, the only digits that
occur in the scraped tokens): true iff nonempty and all digits. -/
def pyIsdigit (l : List Char) : Bool := !l.isEmpty && l.all Char.isDigit

/-- Python's `opponent_cell.replace('vs.', '')`: remove every occurrence of
the three characters `vs.` scanning left to right. -/
def removeVs : List Char → List Char
  | 'v' :: 's' :: '.' :: t => removeVs t
  | c :: t => c :: removeVs t
  | [] => []

/-- A calendar date, the embedding of Python's `datetime.date`. -/
structure Date where
  y : Nat
  m : Nat
  d : Nat
deriving DecidableEq, Repr

/-- Gregorian leap year, as in Python's `calendar.isleap`. -/
def isLeap (y : Nat) : Bool := y % 4 == 0 && (y % 100 != 0 || y % 400 == 0)

/-- Days in a month (month 1-12). -/
def daysInMonth (y m : Nat) : Nat :=
  if m = 2 then (if isLeap y then 29 else 28)
  else if m = 4 ∨ m = 6 ∨ m = 9 ∨ m = 11 then 30
  else 31

/-- Days in the year before the first of the given month. -/
def daysBeforeMonth (y m : Nat) : Nat :=
  (List.range (m - 1)).foldl (fun acc i => acc + daysInMonth y (i + 1)) 0

/-- Days before January 1 of the given year (year 1 gives 0), as in CPython
`datetime._days_before_year`. -/
def daysBeforeYear (y : Nat) : Nat :=
  (y - 1) * 365 + (y - 1) / 4 - (y - 1) / 100 + (y - 1) / 400

/-- Python's `date.toordinal()`: January 1 of year 1 is day 1. -/
def toOrd (dt : Date) : Nat :=
  daysBeforeYear dt.y + daysBeforeMonth dt.y dt.m + dt.d

/-- Python's `date.weekday()` on an ordinal: Monday = 0 .. Sunday = 6. -/
def weekdayOfOrd (n : Nat) : Nat := (n + 6) % 7

/-- Embedding of Python date comparison `d1 <= d2` (chronological order;
identical to ordinal order for the valid dates Python constructs). -/
def dateLe (a b : Date) : Bool := toOrd a ≤ toOrd b

/-- Month and day-of-month from a year and a 0-based day of year, as in the
month probe of CPython `datetime._ord2ymd`. -/
def findMonth (y : Nat) : Nat → Nat → Nat → Nat × Nat
  | 0, m, doy => (m, doy + 1)
  | fuel + 1, m, doy =>
    if doy < daysInMonth y m then (m, doy + 1)
    else findMonth y fuel (m + 1) (doy - daysInMonth y m)

/-- Python's `date.fromordinal`, following CPython `datetime._ord2ymd`. -/
def fromOrd (n : Nat) : Date :=
  let n0 := n - 1
  let n400 := n0 / 146097
  let r400 := n0 % 146097
  let n100 := r400 / 36524
  let r100 := r400 % 36524
  let n4 := r100 / 1461
  let r4 := r100 % 1461
  let n1 := r4 / 365
  let r1 := r4 % 365
  let year := n400 * 400 + n100 * 100 + n4 * 4 + n1 + 1
  if n1 = 4 ∨ n100 = 4 then ⟨year - 1, 12, 31⟩
  else
    let (mo, dy) := findMonth year 11 1 r1
    ⟨year, mo, dy⟩

/-- The lowercase three-letter month abbreviations, as matched
(case-insensitively) by `strptime`'s `%b` in the C locale. -/
def monthsLower : List (List Char) :=
  [strL "jan", strL "feb", strL "mar", strL "apr", strL "may", strL "jun",
   strL "jul", strL "aug", strL "sep", strL "oct", strL "nov", strL "dec"]

/-- The capitalized abbreviations produced by `strftime('%b')`. -/
def monthsCap : List (List Char) :=
  [strL "Jan", strL "Feb", strL "Mar", strL "Apr", strL "May", strL "Jun",
   strL "Jul", strL "Aug", strL "Sep", strL "Oct", strL "Nov", strL "Dec"]

/-- Month number (1-12) of a lowercased three-letter abbreviation. -/
def lookupMonth (ml : List Char) : Option Nat :=
  (monthsLower.findIdx? (fun a => a == ml)).map (· + 1)

/-- Decimal digits of a natural number. -/
def natDigits (n : Nat) : List Char := (Nat.repr n).data

/-- `strftime('%d')`: the day zero-padded to two digits. -/
def pad2 (n : Nat) : List Char :=
  if n < 10 then '0' :: natDigits n else natDigits n

/-- `strftime('%Y')`: the year zero-padded to four digits. -/
def pad4 (n : Nat) : List Char :=
  List.replicate (4 - (natDigits n).length) '0' ++ natDigits n

/-- `strftime('%b %d %Y')` of a date, e.g. `Sep 02 2025`. -/
def fmtBDY (dt : Date) : List Char :=
  (monthsCap.getD (dt.m - 1) (strL "???")) ++ ' ' :: pad2 dt.d ++ ' ' :: pad4 dt.y

/-- Value of an ASCII digit. -/
def digitVal (c : Char) : Nat := c.toNat - 48

/-- Value of a list of ASCII digits. -/
def digitsToNat (l : List Char) : Nat := l.foldl (fun acc c => acc * 10 + digitVal c) 0

/-- The candidate (day value, rest) matches of `strptime`'s `%d` at the head
of the input, in the order of the alternatives of CPython's day regex
`3[01]|[12]\d|0[1-9]|[1-9]` (the regex engine backtracks through them in this
order). -/
def tryDay (l : List Char) : List (Nat × List Char) :=
  (match l with
   | '3' :: c :: r => if c = '0' ∨ c = '1' then [(30 + digitVal c, r)] else []
   | _ => []) ++
  (match l with
   | a :: c :: r =>
     if (a = '1' ∨ a = '2') && c.isDigit then [(digitVal a * 10 + digitVal c, r)] else []
   | _ => []) ++
  (match l with
   | '0' :: c :: r => if '1' ≤ c ∧ c ≤ '9' then [(digitVal c, r)] else []
   | _ => []) ++
  (match l with
   | c :: r => if '1' ≤ c ∧ c ≤ '9' then [(c.toNat - 48, r)] else []
   | _ => [])

/-- One-or-more whitespace, the regex `strptime` substitutes for a literal
space in the format. -/
def eatSpaces : List Char → Option (List Char)
  | c :: r => if c.isWhitespace then some (r.dropWhile Char.isWhitespace) else none
  | [] => none

/-- Exactly four digits, `strptime`'s `%Y`, returning (year, rest). -/
def eatYear4 (l : List Char) : Option (Nat × List Char) :=
  if 4 ≤ l.length ∧ (l.take 4).all Char.isDigit
  then some (digitsToNat (l.take 4), l.drop 4) else none

/-- The validity check `datetime.datetime(year, month, day)` performs after
the regex match (MINYEAR is 1; the regex already keeps the day in 1..31). -/
def mkValidDate (y mo dy : Nat) : Option Date :=
  if 1 ≤ y ∧ dy ≤ daysInMonth y mo then some ⟨y, mo, dy⟩ else none

/-- The rest of the `'%b %d %Y'` pattern after a day candidate: whitespace,
then a four-digit year, returning (day, year, leftover input). -/
def afterDayMonDY (p : Nat × List Char) : Option (Nat × Nat × List Char) :=
  match eatSpaces p.2 with
  | none => none
  | some afterSp2 =>
    match eatYear4 afterSp2 with
    | none => none
    | some q => some (p.1, q.1, q.2)

/-- The rest of the `'%b%d%Y'` pattern after a day candidate: a four-digit
year, returning (day, year, leftover input). -/
def afterDayMonDYns (p : Nat × List Char) : Option (Nat × Nat × List Char) :=
  match eatYear4 p.2 with
  | none => none
  | some q => some (p.1, q.1, q.2)

/-- `datetime.strptime(s, '%b %d %Y')` (then `.date()`): case-insensitive
three-letter month, whitespace, day, whitespace, four-digit year, nothing
after; like the regex engine, the first day alternative under which the rest
of the pattern matches is the one used, and leftover input then fails the
whole parse. -/
def parseMonDY (s : List Char) : Option Date :=
  match lookupMonth (pyLower (s.take 3)) with
  | none => none
  | some mo =>
    match eatSpaces (s.drop 3) with
    | none => none
    | some afterSp =>
      match (tryDay afterSp).findSome? afterDayMonDY with
      | none => none
      | some (dy, yr, leftover) =>
        if leftover = [] then mkValidDate yr mo dy else none

/-- `datetime.strptime(s, '%b%d%Y')` (then `.date()`): the same with no
separators. -/
def parseMonDYns (s : List Char) : Option Date :=
  match lookupMonth (pyLower (s.take 3)) with
  | none => none
  | some mo =>
    match (tryDay (s.drop 3)).findSome? afterDayMonDYns with
    | none => none
    | some (dy, yr, leftover) =>
      if leftover = [] then mkValidDate yr mo dy else none

/-- The two-format date parse of `scrape_athletics_schedule` (try
`'%b %d %Y'`, on failure `'%b%d%Y'`, on failure skip). -/
def parseGameDate (s : List Char) : Option Date :=
  match parseMonDY s with
  | some d => some d
  | none => parseMonDYns s

/-- The date-range fix of `scrape_athletics_schedule` (lines 176-180): a token
with a hyphen whose length exceeds 15 is a multi-day range; keep the stripped
substring before the first hyphen. -/
def rangeFix (s : List Char) : List Char :=
  if s.contains '-' ∧ 15 < s.length then pyStrip (s.takeWhile (· ≠ '-')) else s

/-- The concatenated-date fix of `scrape_athletics_schedule` (lines 182-198):
a token of length at least 8 whose tail after the first three characters is
all digits gets spaces inserted between month, day and year, splitting the
digit run by its total count (6: two-digit day; 5: one-digit day; 7: treat
the leading two digits as the day). -/
def digitFix (s : List Char) : List Char :=
  if 8 ≤ s.length ∧ pyIsdigit (s.drop 3) = true then
    let mon := s.take 3
    let rest := s.drop 3
    if rest.length = 6 then mon ++ ' ' :: rest.take 2 ++ ' ' :: rest.drop 2
    else if rest.length = 5 then mon ++ ' ' :: rest.take 1 ++ ' ' :: rest.drop 1
    else if rest.length = 7 then mon ++ ' ' :: rest.take 2 ++ ' ' :: rest.drop 2
    else s
  else s

/-- The whole date normalization applied to a scraped date cell before
parsing: range fix, then concatenated-date fix. -/
def normalizeDate (s : List Char) : List Char := digitFix (rangeFix s)

/-- The indicator list of `is_middle_school_game`. -/
def middle_school_indicators : List (List Char) :=
  [strL "middle school", strL "ms", strL "6th", strL "7th", strL "8th",
   strL "sixth", strL "seventh", strL "eighth"]

/-- `is_middle_school_game` from generate_games.py (lines 560-570). -/
def is_middle_school_game (team_name : List Char) : Bool :=
  middle_school_indicators.any (fun ind => containsSub (pyLower team_name) ind)

/-- The varsity indicator list of `is_varsity_game`. -/
def varsity_indicators : List (List Char) := [strL "varsity", strL "var"]

/-- The non-varsity indicator list of `is_varsity_game`. -/
def non_varsity_indicators : List (List Char) :=
  [strL "jv", strL "junior varsity", strL "c team", strL "6th", strL "7th",
   strL "8th", strL "middle school", strL "ms"]

/-- `is_varsity_game` from generate_games.py (lines 614-635). -/
def is_varsity_game (team_name : List Char) : Bool :=
  let team_lower := pyLower team_name
  if varsity_indicators.any (fun ind => containsSub team_lower ind) then true
  else if non_varsity_indicators.any (fun ind => containsSub team_lower ind) then false
  else if is_middle_school_game team_name then false
  else true

/-- The keys of SPORT_CONFIG in insertion order. -/
def sportKeys : List (List Char) :=
  [strL "soccer", strL "football", strL "tennis", strL "golf",
   strL "cross country", strL "field hockey", strL "volleyball",
   strL "basketball", strL "lacrosse", strL "baseball", strL "swimming",
   strL "track", strL "ice hockey"]

/-- `extract_sport_from_team` from generate_games.py (lines 240-254). -/
def extract_sport_from_team (team_name : List Char) : List Char :=
  let team_lower := pyLower team_name
  match sportKeys.find? (fun k => containsSub team_lower k) with
  | some k => k
  | none =>
    if containsSub team_lower (strL "xc") || containsSub team_lower (strL "cross country")
    then strL "cross country"
    else if containsSub team_lower (strL "track") then strL "track"
    else strL "other"

/-- The keys of ARTS_CONFIG in insertion order. -/
def artsKeys : List (List Char) :=
  [strL "dance", strL "music", strL "theater", strL "theatre", strL "visual",
   strL "art", strL "concert", strL "performance", strL "showcase", strL "exhibit"]

/-- `extract_arts_category` from generate_games.py (lines 256-266). -/
def extract_arts_category (event_title : List Char) : List Char :=
  match artsKeys.find? (fun k => containsSub (pyLower event_title) k) with
  | some k => k
  | none => strL "performance"

/-- The `Game` class (its data fields). -/
structure Game where
  team : List Char
  opponent : List Char
  date : List Char
  time : List Char
  location : List Char
  is_home : Bool
  sport : List Char
deriving DecidableEq, Repr

/-- `Game.__init__`, which lowercases the sport. -/
def mkGame (team opponent date time location : List Char) (is_home : Bool)
    (sport : List Char) : Game :=
  ⟨team, opponent, date, time, location, is_home, pyLower sport⟩

/-- The `Event` class for arts events (its constructor-argument fields; the
class also aliases `team := title`, `is_home := True`, `sport := category`
for compatibility, embedded below as accessor functions). -/
structure ArtsEvent where
  title : List Char
  date : List Char
  time : List Char
  location : List Char
  category : List Char
deriving DecidableEq, Repr

/-- `Event.__init__`, which lowercases the category. -/
def mkArtsEvent (title date time location category : List Char) : ArtsEvent :=
  ⟨title, date, time, location, pyLower category⟩

/-- An element of the combined event list: a `Game` or an arts `Event`
(the scripts distinguish them by `isinstance` / `event_type`). -/
inductive SchoolEvent where
  | game (g : Game)
  | arts (e : ArtsEvent)
deriving DecidableEq, Repr

/-- The `.team` attribute of either class (an `Event` aliases its title). -/
def SchoolEvent.teamAttr : SchoolEvent → List Char
  | .game g => g.team
  | .arts e => e.title

/-- `is_featured_game` from generate_games.py (lines 637-648). -/
def is_featured_game (ev : SchoolEvent) (is_middle_school : Bool) : Bool :=
  match ev with
  | .arts _ => true
  | .game g => if is_middle_school then g.is_home else g.is_home || is_varsity_game g.team

/-- `categorize_events` from generate_signage.py (lines 83-99): arts events
are featured; games are featured exactly when varsity. -/
def categorize_events : List SchoolEvent → List SchoolEvent × List SchoolEvent
  | [] => ([], [])
  | ev :: t =>
    let (featured, regular) := categorize_events t
    match ev with
    | .arts _ => (ev :: featured, regular)
    | .game g =>
      if is_varsity_game g.team then (ev :: featured, regular)
      else (featured, ev :: regular)

/-- One iteration of the row loop of `scrape_athletics_schedule` (lines
160-232): a row is its list of cell texts; rows with fewer than 6 cells or an
unparseable (normalized) date yield nothing, others yield a `Game` exactly
when the parsed date lies in the inclusive range. -/
def processRow (s e : Date) (cells : List (List Char)) : Option Game :=
  if cells.length < 6 then none
  else
    let team := cells.getD 0 []
    let opponent := pyStrip (removeVs (cells.getD 1 []))
    let date_str := normalizeDate (cells.getD 2 [])
    let time_str := cells.getD 3 []
    let location := cells.getD 4 []
    let advantage := cells.getD 5 []
    match parseGameDate date_str with
    | none => none
    | some game_date =>
      if dateLe s game_date && dateLe game_date e then
        some (mkGame team opponent date_str time_str location
          (pyLower advantage == strL "home") (extract_sport_from_team team))
      else none

/-- The whole row loop: each row is processed independently; failed rows are
skipped and the loop continues. -/
def processRows (s e : Date) (rows : List (List (List Char))) : List Game :=
  rows.filterMap (processRow s e)

/-- `scrape_athletics_schedule` (lines 135-238): one fetch (`env 0`; `none`
models a network error or a missing table, both of which return `[]`), skip
the header row, process the remaining rows.  The fetch environment `env`
maps the number of load-more interactions to the rows then visible; the
function as written in the source only ever reads `env 0`. -/
def scrape_athletics_schedule (env : Nat → Option (List (List (List Char))))
    (s e : Date) : List Game :=
  match env 0 with
  | none => []
  | some trs => processRows s e (trs.drop 1)

/-- A VEVENT start value: a bare date (all-day) or a date-time. -/
inductive DtStart where
  | dateOnly (d : Date)
  | dateTime (d : Date) (h mi : Nat)
deriving DecidableEq, Repr

/-- The calendar date of a VEVENT start (`.date()` on a datetime). -/
def DtStart.date : DtStart → Date
  | .dateOnly d => d
  | .dateTime d _ _ => d

/-- A parsed iCal VEVENT component as `fetch_arts_events` reads it. -/
structure VEvent where
  summary : Option (List Char)
  location : Option (List Char)
  dtstart : Option DtStart
deriving DecidableEq, Repr

/-- `event_dt.strftime('%I:%M %p').lstrip('0')`: 12-hour clock with leading
zeros of the hour stripped. -/
def fmt12h (h mi : Nat) : List Char :=
  let h12 := if h % 12 = 0 then 12 else h % 12
  (pad2 h12 ++ ':' :: pad2 mi ++ ' ' :: (if h < 12 then strL "AM" else strL "PM")).dropWhile
    (· = '0')

/-- One iteration of the VEVENT loop of `fetch_arts_events` (lines 288-327):
a component without a start yields nothing; otherwise an `Event` is built
exactly when the start's date lies in the inclusive range. -/
def processVEvent (s e : Date) (comp : VEvent) : Option ArtsEvent :=
  match comp.dtstart with
  | none => none
  | some dt =>
    let event_date := dt.date
    let event_time :=
      match dt with
      | .dateOnly _ => strL "All Day"
      | .dateTime _ h mi => fmt12h h mi
    if dateLe s event_date && dateLe event_date e then
      let summary := comp.summary.getD (strL "Untitled Event")
      some (mkArtsEvent summary (fmtBDY event_date) event_time
        (comp.location.getD (strL "TBA")) (extract_arts_category summary))
    else none

/-- `fetch_arts_events` (lines 268-333): `none` models a network error
(returns `[]`); otherwise each VEVENT is processed independently, failures
skipped. -/
def fetch_arts_events (feed : Option (List VEvent)) (s e : Date) : List ArtsEvent :=
  match feed with
  | none => []
  | some comps => comps.filterMap (processVEvent s e)

/-- The consecutive-pair check of `get_missing_weekdays` (lines 692-696):
whether some adjacent pair of the sorted game-date list strictly straddles
the day. -/
def straddle : List Nat → Nat → Bool
  | a :: b :: t, n => (decide (a < n) && decide (n < b)) || straddle (b :: t) n
  | _, _ => false

/-- `get_missing_weekdays` (lines 663-703) over the keys of `games_by_date`:
parse the keys with `'%b %d %Y'` (unparseable keys skipped); with fewer than
two parsed dates return nothing; otherwise walk every day of [start, end]
and collect the formatted weekdays that are not a key and lie strictly
between two consecutive sorted game dates. -/
def get_missing_weekdays (keys : List (List Char)) (s e : Date) : List (List Char) :=
  let game_dates := (keys.filterMap parseMonDY).map toOrd
  if game_dates.length < 2 then []
  else
    let sortedDates := List.insertionSort (· ≤ ·) game_dates
    let ns := toOrd s
    let ne := toOrd e
    (((List.range (ne + 1 - ns)).map (ns + ·)).filter (fun n =>
      weekdayOfOrd n < 5 && !(keys.contains (fmtBDY (fromOrd n))) &&
        straddle sortedDates n)).map (fun n => fmtBDY (fromOrd n))

/-- The hero text variations used when there are both sports and arts events (generate_games.py lines 736-749). -/
def hero_texts_arts : List (List Char) :=
  [strL "The Sun Devil spirit shines bright this week! Our Kent Denver students are ready to compete and perform across {sport_count} sports and arts events. Go Devils! 🔥😈🎭",
   strL "From the Rocky Mountains to the playing fields and stages, our Sun Devils are bringing their competitive and creative spirit this week! 🏔️⚡🎨",
   strL "Kent Denver's finest are taking the field and the stage! Join us as we support {sport_count} sports and performances packed with talent and determination. 🔥🏆🎭",
   strL "Excellence is our standard! This week features {sport_count} sports and arts events where Sun Devil talent shines brightest. 😈🏆🎵",
   strL "Altitude advantage meets Sun Devil attitude! Our teams and performers are ready to soar across {sport_count} sports and arts events this week. Mile High, Sun Devil High! 🏔️🔥🎭",
   strL "Exciting action and performances are coming your way! Kent Denver's Sun Devils are bringing their best to {sport_count} sports and arts events this week. ❤️⚡🎨",
   strL "The Sun Devil legacy continues! This week's {sport_count} sports and performances showcase why Kent Denver develops champions and artists. Come witness greatness! 🏆🔥🎭",
   strL "Horns up, spirits high! Our Sun Devils are ready to compete and perform across {sport_count} sports and arts events with heart and determination. Join us! 😈⚡🎵",
   strL "Excellence is our tradition, victory and artistry are our goals! This week's {sport_count} sports and performances showcase the depth of Sun Devil pride. 🌊🔥🎭",
   strL "From sunrise to sunset, our Sun Devils shine! Kent Denver's athletic and artistic talent is on display across {sport_count} sports and arts events this week. ✨😈🎨",
   strL "The mountains may be high, but Sun Devil spirits soar higher! Join us for {sport_count} sports and performances of Colorado excellence. 🏔️🔥🎭",
   strL "Built through dedication, strengthened by Sun Devil spirit! This week's {sport_count} sports and arts events will showcase your passion for Kent Denver! 🔥⚡🎵"]

/-- The hero text variations used when there are only sports (lines 752-765). -/
def hero_texts_sports : List (List Char) :=
  [strL "The Sun Devil spirit shines bright this week! Our Kent Denver athletes are ready to compete across {sport_count} sports. Go Devils! 🔥😈",
   strL "From the Rocky Mountains to the playing fields, our Sun Devils are bringing their competitive spirit to {sport_count} sports this week! 🏔️⚡",
   strL "Kent Denver's finest are taking the field! Join us as we support {sport_count} sports packed with talent and determination. 🔥🏆",
   strL "Excellence is our standard! This week features {sport_count} sports where Sun Devil talent shines brightest. 😈🏆",
   strL "Altitude advantage meets Sun Devil attitude! Our teams are ready to soar across {sport_count} sports this week. Mile High, Sun Devil High! 🏔️🔥",
   strL "Exciting action is coming your way! Kent Denver's Sun Devils are bringing their best to {sport_count} sports this week. ❤️⚡",
   strL "The Sun Devil legacy continues! This week's {sport_count} sports showcase why Kent Denver develops champions. Come witness greatness! 🏆🔥",
   strL "Horns up, spirits high! Our Sun Devils are ready to compete across {sport_count} sports with heart and determination. Join us! 😈⚡",
   strL "Excellence is our tradition, victory is our goal! This week's {sport_count} sports showcase the depth of Sun Devil pride. 🌊🔥",
   strL "From sunrise to sunset, our Sun Devils shine! Kent Denver's athletic talent is on display across {sport_count} sports this week. ✨😈",
   strL "The mountains may be high, but Sun Devil spirits soar higher! Join us for {sport_count} sports of Colorado athletic excellence. 🏔️🔥",
   strL "Built through dedication, strengthened by Sun Devil spirit! This week's {sport_count} sports will showcase your passion for Kent Denver athletics! 🔥⚡"]

/-- The call-to-action text variations for sports plus arts (lines 770-783). -/
def cta_texts_arts : List (List Char) :=
  [strL "Show your Sun Devil pride! Come cheer and applaud as our athletes and performers represent Kent Denver across every sport, stage, and grade level.",
   strL "The Sun Devil community needs YOU! Join us and help our teams and performers feel the power of true Kent Denver spirit.",
   strL "From the mountains to the fields and stages, Sun Devils stick together! Your presence energizes our athletes and artists and shows your school pride.",
   strL "Horns up, voices loud! Pack the stands and fill the seats to show our student-athletes and performers what it means to have Sun Devil nation behind them.",
   strL "Feel the excitement, share the spirit! Your cheers and applause are the boost that helps our Sun Devils perform their best. Come join us!",
   strL "Red and blue runs through our school, victory and artistry are our shared goals! Support our teams and performers and be part of the Kent Denver tradition.",
   strL "The altitude is high, but Sun Devil spirits soar higher! Join your fellow Sun Devils and create an amazing atmosphere at games and performances.",
   strL "Champions and artists are supported by community! Be the encouragement that helps our Sun Devils reach new heights of excellence.",
   strL "Your energy matters, your passion shows! Come witness greatness on fields and stages and help write the next chapter of Sun Devil excellence.",
   strL "From morning games to evening performances, our Sun Devils need their community! Join us and feel the rush of Kent Denver pride.",
   strL "The strength is in the details, and you are that strength! Your support creates the home advantage and inspiring atmosphere that makes a difference.",
   strL "Wear red, dream big, cheer loud! Come celebrate the heart, dedication, and talent of Kent Denver's finest student-athletes and performers!"]

/-- The call-to-action text variations for sports only (lines 786-799). -/
def cta_texts_sports : List (List Char) :=
  [strL "Show your Sun Devil pride! Come cheer as our athletes compete for Kent Denver across every sport and grade level.",
   strL "The Sun Devil community needs YOU! Join us and help our teams feel the power of true Kent Denver spirit.",
   strL "From the mountains to the fields, Sun Devils stick together! Your presence energizes our athletes and shows your school pride.",
   strL "Horns up, voices loud! Pack the stands and show our student-athletes what it means to have Sun Devil nation behind them.",
   strL "Feel the excitement, share the spirit! Your cheers are the boost that helps our Sun Devils perform their best. Come join us!",
   strL "Red and blue runs through our school, victory is our shared goal! Support our teams and be part of the Kent Denver tradition.",
   strL "The altitude is high, but Sun Devil spirits soar higher! Join your fellow Sun Devils and create an amazing atmosphere.",
   strL "Champions are supported by community! Be the encouragement that helps our Sun Devils reach new heights of excellence.",
   strL "Your energy matters, your passion shows! Come witness greatness and help write the next chapter of Sun Devil athletics.",
   strL "From morning games to evening victories, our Sun Devils need their community! Join us and feel the rush of Kent Denver pride.",
   strL "The strength is in the details, and you are that strength! Your support creates the home advantage that makes a difference.",
   strL "Wear red, dream big, cheer loud! Come celebrate the heart, dedication, and talent of Kent Denver's finest student-athletes!"]

/-- The intro text variations for sports plus arts (lines 804-817). -/
def intro_texts_arts : List (List Char) :=
  [strL "The Sun Devil spirit is shining bright! Mark your calendars for exciting competitions and performances across every sport, art form, and grade level at Kent Denver.",
   strL "Get ready for great matchups and captivating performances as our talented Sun Devil athletes and artists take center stage this week.",
   strL "The mountains echo with excitement! Get ready to witness Kent Denver's finest athletes and performers compete and create with determination this week.",
   strL "From morning to evening, our Sun Devils are ready to represent our school with pride across multiple sports, performances, and divisions.",
   strL "Witness the excellence that happens when Sun Devil determination meets Colorado spirit in these exciting athletic and artistic events.",
   strL "Our student-athletes and performers are bringing their best to represent the Kent Denver tradition with dedication and school pride.",
   strL "Feel the excitement in the air as Sun Devil athletics and arts bring together our community for outstanding moments of competition and creativity.",
   strL "Rally behind our teams and performers as they compete and create with heart, supported by passion and that strong Sun Devil spirit.",
   strL "The stage is set for excellence! Our Sun Devil athletes and artists are ready to deliver performances that make our school proud.",
   strL "From courts to fields to stages, our students are ready to compete and perform in every arena with the heart of true Kent Denver Sun Devils.",
   strL "Join the Sun Devil community as we unite to support student-athletes and performers who represent excellence in every competition and performance.",
   strL "This week brings athletic and artistic excellence in action as our Sun Devils compete and perform with the dedication that makes Kent Denver special."]

/-- The intro text variations for sports only (lines 820-833). -/
def intro_texts_sports : List (List Char) :=
  [strL "The Sun Devil spirit is shining bright! Mark your calendars for exciting competitions across every sport and grade level at Kent Denver.",
   strL "Get ready for great matchups as our talented Sun Devil athletes take center stage in competitions that showcase their skills.",
   strL "The mountains echo with excitement! Get ready to witness Kent Denver's finest athletes compete with determination this week.",
   strL "From morning to evening, our Sun Devils are ready to represent our school with pride across multiple sports and divisions.",
   strL "Witness the excellence that happens when Sun Devil determination meets Colorado spirit in these exciting athletic events.",
   strL "Our student-athletes are bringing their best to represent the Kent Denver tradition with dedication and school pride.",
   strL "Feel the excitement in the air as Sun Devil athletics brings together our community for outstanding moments of competition.",
   strL "Rally behind our teams as they compete with heart, supported by passion and that strong Sun Devil spirit.",
   strL "The stage is set for excellence! Our Sun Devil athletes are ready to deliver performances that make our school proud.",
   strL "From courts to fields, our athletes are ready to compete in every arena with the heart of true Kent Denver Sun Devils.",
   strL "Join the Sun Devil community as we unite to support student-athletes who represent excellence in every competition.",
   strL "This week brings athletic excellence in action as our Sun Devils compete with the dedication that makes Kent Denver special."]

/-- The main title variations (lines 836-845). -/
def title_variations : List (List Char) :=
  [strL "Games This Week",
   strL "This Week's Games",
   strL "Kent Denver Athletics",
   strL "Sun Devil Sports",
   strL "Weekly Games",
   strL "Athletic Events",
   strL "Sports This Week",
   strL "Sun Devil Schedule"]

/-- The call-to-action button text variations (lines 848-859). -/
def cta_button_texts : List (List Char) :=
  [strL "Show Sun Devil Pride",
   strL "Join The Community",
   strL "Share The Spirit",
   strL "Horns Up, Hearts Out",
   strL "Support The Team",
   strL "Rally The Devils",
   strL "Wear Red & Blue",
   strL "Answer The Call",
   strL "Stand With Us",
   strL "Embrace The Tradition"]

/-- The call-to-action header variations (lines 862-873). -/
def cta_headers : List (List Char) :=
  [strL "Horns Up, Kent Denver! 🔥😈",
   strL "Sun Devil Spirit! 🔥⚡",
   strL "Red & Blue Ready! ❤️💙",
   strL "Mile High Devils! 🏔️🔥",
   strL "Show Your Pride! 😈⚡",
   strL "Sun Devil Strong! 💪🔥",
   strL "Rise Up, Sun Devils! 🔥😈",
   strL "School Spirit Awaits! ✨😈",
   strL "Wear Red, Dream Big! ❤️🏆",
   strL "Sun Devil Legacy! 🔥�"]


/-- The hero text list selected by `has_arts_events` (lines 734-765). -/
def hero_texts (has_arts_events : Bool) : List (List Char) :=
  if has_arts_events then hero_texts_arts else hero_texts_sports

/-- The CTA text list selected by `has_arts_events` (lines 768-799). -/
def cta_texts (has_arts_events : Bool) : List (List Char) :=
  if has_arts_events then cta_texts_arts else cta_texts_sports

/-- The intro text list selected by `has_arts_events` (lines 802-833). -/
def intro_texts (has_arts_events : Bool) : List (List Char) :=
  if has_arts_events then intro_texts_arts else intro_texts_sports

/-- CPython `datetime._isoweek1monday`: the ordinal of the Monday of ISO
week 1 of the given year. -/
def isoweek1monday (y : Nat) : Nat :=
  let firstday := toOrd ⟨y, 1, 1⟩
  let firstweekday := (firstday + 6) % 7
  let week1monday := firstday - firstweekday
  if 3 < firstweekday then week1monday + 7 else week1monday

/-- The ISO week number of a date, `date.isocalendar()[1]`, following
CPython `date.isocalendar`. -/
def isoWeek (dt : Date) : Nat :=
  let today := toOrd dt
  let w1m := isoweek1monday dt.y
  let week : Int := Int.fdiv ((today : Int) - (w1m : Int)) 7
  if week < 0 then
    let w1mPrev := isoweek1monday (dt.y - 1)
    (Int.fdiv ((today : Int) - (w1mPrev : Int)) 7).toNat + 1
  else if 52 ≤ week ∧ isoweek1monday (dt.y + 1) ≤ today then 1
  else week.toNat + 1

/-- The record returned by `get_dynamic_text_variations`. -/
structure TextVariations where
  hero_text : List Char
  cta_text : List Char
  intro_text : List Char
  title_text : List Char
  cta_button_text : List Char
  cta_header_text : List Char
deriving DecidableEq, Repr

/-- `get_dynamic_text_variations` (lines 705-890): the ISO week number of
the start date indexes every variation list modulo its length. -/
def get_dynamic_text_variations (start_date : Date) (has_arts_events : Bool) :
    TextVariations :=
  let week_number := isoWeek start_date
  { hero_text := (hero_texts has_arts_events).getD
      (week_number % (hero_texts has_arts_events).length) []
    cta_text := (cta_texts has_arts_events).getD
      (week_number % (cta_texts has_arts_events).length) []
    intro_text := (intro_texts has_arts_events).getD
      (week_number % (intro_texts has_arts_events).length) []
    title_text := title_variations.getD
      (week_number % title_variations.length) []
    cta_button_text := cta_button_texts.getD
      (week_number % cta_button_texts.length) []
    cta_header_text := cta_headers.getD
      (week_number % cta_headers.length) [] }

/-- The module-level names the execution of generate_games.py defines (its
imports, the two config dictionaries, the two classes and every top-level
function), in source order.  A `from generate_games import x` succeeds
exactly when `x` is among them. -/
def generate_games_module_names : List String :=
  ["argparse", "requests", "BeautifulSoup", "datetime", "timedelta", "re",
   "List", "Dict", "Optional", "Union", "sys", "os", "Calendar",
   "SPORT_CONFIG", "ARTS_CONFIG", "Game", "Event",
   "scrape_athletics_schedule", "extract_sport_from_team",
   "extract_arts_category", "fetch_arts_events", "format_date_range",
   "group_games_by_date", "generate_featured_event_card_html",
   "generate_featured_game_card_html", "generate_other_event_list_item_html",
   "generate_other_game_list_item_html", "is_middle_school_game",
   "separate_games_by_school", "get_current_week", "get_next_week",
   "is_varsity_game", "is_featured_game", "categorize_games_by_priority",
   "get_missing_weekdays", "get_dynamic_text_variations", "main",
   "generate_html_email"]

/-- The names generate_signage.py requests in its
`from generate_games import (...)` statement (lines 32-37), in order. -/
def signage_imported_names : List String :=
  ["Game", "Event", "scrape_athletics_schedule", "fetch_arts_events",
   "is_varsity_game", "build_icon_html", "KDS_PRIMARY_LOGO_URL"]

/-- Python `from`-import semantics: the statement succeeds iff every
requested name is an attribute of the loaded module. -/
def from_import_succeeds (requested defined : List String) : Bool :=
  requested.all (fun n => defined.contains n)

/-- The requested names a `from`-import fails on (the first of them is the
one named by the raised ImportError). -/
def failing_import_names (requested defined : List String) : List String :=
  requested.filter (fun n => !(defined.contains n))

/-- Modelled from the spec: the featured test of section 4.4 --
performances are always featured; middle-school games are featured iff
home; all other games are featured iff home or varsity. -/
def featuredRuleSpec : SchoolEvent → Bool
  | .arts _ => true
  | .game g =>
    if is_middle_school_game g.team then g.is_home
    else g.is_home || is_varsity_game g.team

/-- The rows visible after `i` load-more interactions, header row skipped
(shared by the Stage 1 pass and the modelled Stage 2). -/
def rowsAt (env : Nat → Option (List (List (List Char)))) (i : Nat) :
    List (List (List Char)) :=
  ((env i).getD []).drop 1

/-- The latest (largest-ordinal) event date among a list of games, re-read
from their stored date strings; 0 when none parse. -/
def latestGameOrd (games : List Game) : Nat :=
  ((games.filterMap (fun g => parseGameDate g.date)).map toOrd).foldl max 0

/-- Whether a scrape result already covers the requested end date: it is
nonempty and its latest event date is at least the end of the range. -/
def coversRange (games : List Game) (e : Date) : Bool :=
  !games.isEmpty && toOrd e ≤ latestGameOrd games

/-- Modelled from the spec: the Stage 2 load-more loop of section 4.2 (not
present in the repository's code), starting after `i` interactions with
`fuel` clicks remaining: stop when the parsed view covers the requested end
or the next interaction exposes nothing new (no further expansion), else
click again; on exhaustion return whatever was accumulated. -/
def stage2From (env : Nat → Option (List (List (List Char)))) (s e : Date) :
    Nat → Nat → List Game
  | i, 0 => processRows s e (rowsAt env i)
  | i, fuel + 1 =>
    let cur := processRows s e (rowsAt env i)
    if coversRange cur e ∨ env (i + 1) = env i then cur
    else stage2From env s e (i + 1) fuel

/-- Modelled from the spec: the whole two-stage scrape of section 4.2 --
Stage 1 is a single fetch-and-parse pass; if it yields zero rows or its
latest date falls short of the requested end, Stage 2 (bounded by 50
load-more iterations) supersedes it. -/
def scheduleScrapeSpec (env : Nat → Option (List (List (List Char))))
    (s e : Date) : List Game :=
  let stage1 := scrape_athletics_schedule env s e
  if stage1.isEmpty || !(coversRange stage1 e) then stage2From env s e 1 50
  else stage1

/-- The featured rule `categorize_events` actually applies to a game in the
signage: varsity only. -/
def signageFeatured : SchoolEvent → Bool
  | .arts _ => true
  | .game g => is_varsity_game g.team

/-- A home but non-varsity game: featured by the rule, regular in the signage. -/
def jvHomeGame : Game :=
  mkGame (strL "JV Soccer") (strL "Eagles") (strL "Sep 22 2025")
    (strL "4:00 PM") (strL "Home Field") true (strL "soccer")

/-- A sample well-formed schedule row in range Sep 22-28 2025. -/
def sampleRow : List (List Char) :=
  [strL "Varsity Soccer", strL "vs. Eagles", strL "Sep 22 2025",
   strL "4:00 PM", strL "Home Field", strL "Home"]

/-- A fetch environment whose first page has a header row only, while every
load-more interaction exposes one in-range game row. -/
def loadMoreEnv : Nat → Option (List (List (List Char))) :=
  fun i => if i = 0 then some [[]] else some [[], sampleRow]

/-- A fetch environment agreeing with `loadMoreEnv` on the first fetch but
exposing nothing on load-more. -/
def noMoreEnv : Nat → Option (List (List (List Char))) :=
  fun i => if i = 0 then some [[]] else none

/-- Claim C2: generate_signage.py imports build_icon_html and
KDS_PRIMARY_LOGO_URL from generate_games, but generate_games defines no such
names, so loading the signage module raises an ImportError before any
signage function can run. -/
theorem signage_import_fails :
    from_import_succeeds signage_imported_names generate_games_module_names = false ∧
    failing_import_names signage_imported_names generate_games_module_names =
      ["build_icon_html", "KDS_PRIMARY_LOGO_URL"] := by
  decide

/-- Claim C3 (failing input): the team string `MS Varsity Soccer` is
classified middle school and varsity at the same time, because the explicit
varsity check of `is_varsity_game` runs before its middle-school checks --
contradicting the source's own comment that for middle school games nothing
is varsity. -/
theorem ms_and_varsity_both_true :
    is_middle_school_game (strL "MS Varsity Soccer") = true ∧
    is_varsity_game (strL "MS Varsity Soccer") = true := by
  decide

/-- Claim C4 (counterexample): a home non-varsity game is featured under the
spec's featured test, yet `categorize_events` of the signage puts it in the
regular bucket (it features varsity games only, ignoring home/away). -/
theorem categorize_events_drops_home_game :
    featuredRuleSpec (.game jvHomeGame) = true ∧
    categorize_events [.game jvHomeGame] = ([], [.game jvHomeGame]) := by
  decide

/-- Claim C4 (amended): `is_featured_game`, applied with the event's own
middle-school flag, computes exactly the spec's featured test; but
`categorize_events` of the signage features exactly the arts events and the
varsity games, so home status never makes a game featured there. -/
theorem featured_email_rule_signage_varsity_only :
    (∀ ev : SchoolEvent,
      is_featured_game ev (is_middle_school_game ev.teamAttr) = featuredRuleSpec ev) ∧
    (∀ evs : List SchoolEvent,
      categorize_events evs =
        (evs.filter signageFeatured, evs.filter (fun ev => !(signageFeatured ev)))) := by
  constructor
  · intro ev
    cases ev with
    | game g => rfl
    | arts e => rfl
  · intro evs
    induction evs with
    | nil => rfl
    | cons ev t ih =>
      cases ev with
      | game g =>
        simp only [categorize_events, ih, List.filter, signageFeatured]
        by_cases h : is_varsity_game g.team = true
        · simp [h]
        · simp [Bool.eq_false_iff.mpr h]
      | arts e =>
        simp [categorize_events, ih, List.filter, signageFeatured]

/-- Claim C1 (amended): `scrape_athletics_schedule` is a single
fetch-and-parse pass -- its output depends only on the first fetch result,
so no load-more escalation ever happens; in particular a first fetch with
zero rows yields the empty list no matter what further fetches would show. -/
theorem scrape_single_pass
    (env env' : Nat → Option (List (List (List Char)))) (s e : Date)
    (h : env 0 = env' 0) :
    scrape_athletics_schedule env s e = scrape_athletics_schedule env' s e := by
  unfold scrape_athletics_schedule
  rw [h]

/-- Witness for `scrape_single_pass`: the two concrete environments agree on
the first fetch and the scrape cannot tell them apart, although one of them
has an in-range game behind the load-more affordance. -/
theorem scrape_single_pass_witness :
    loadMoreEnv 0 = noMoreEnv 0 ∧
    scrape_athletics_schedule loadMoreEnv ⟨2025, 9, 22⟩ ⟨2025, 9, 28⟩ =
      scrape_athletics_schedule noMoreEnv ⟨2025, 9, 22⟩ ⟨2025, 9, 28⟩ :=
  ⟨by decide, scrape_single_pass loadMoreEnv noMoreEnv _ _ (by decide)⟩

/-- Claim C1 (counterexample): with a first fetch of zero data rows and an
in-range game one load-more interaction away, the code returns the empty
Stage 1 result, while the spec's two-stage escalation would return the
game. -/
theorem scrape_no_stage2_counterexample :
    scrape_athletics_schedule loadMoreEnv ⟨2025, 9, 22⟩ ⟨2025, 9, 28⟩ = [] ∧
    scheduleScrapeSpec loadMoreEnv ⟨2025, 9, 22⟩ ⟨2025, 9, 28⟩ ≠ [] := by
  decide

/-- Claim C9: the text variations are a pure deterministic function of the
start date's ISO week number and the arts flag (equal week numbers give an
identical selection), and every variation list has more than one entry while
consecutive week numbers pick different indices under the modulo lookup. -/
theorem text_variation_determinism_and_rotation :
    (∀ d1 d2 : Date, ∀ a : Bool, isoWeek d1 = isoWeek d2 →
      get_dynamic_text_variations d1 a = get_dynamic_text_variations d2 a) ∧
    (∀ w : Nat, ∀ a : Bool,
      (1 < (hero_texts a).length ∧
        w % (hero_texts a).length ≠ (w + 1) % (hero_texts a).length) ∧
      (1 < (cta_texts a).length ∧
        w % (cta_texts a).length ≠ (w + 1) % (cta_texts a).length) ∧
      (1 < (intro_texts a).length ∧
        w % (intro_texts a).length ≠ (w + 1) % (intro_texts a).length) ∧
      (1 < title_variations.length ∧
        w % title_variations.length ≠ (w + 1) % title_variations.length) ∧
      (1 < cta_button_texts.length ∧
        w % cta_button_texts.length ≠ (w + 1) % cta_button_texts.length) ∧
      (1 < cta_headers.length ∧
        w % cta_headers.length ≠ (w + 1) % cta_headers.length)) := by
  constructor
  · intro d1 d2 a h
    simp only [get_dynamic_text_variations, h]
  · intro w a
    have h1 : (hero_texts a).length = 12 := by cases a <;> rfl
    have h2 : (cta_texts a).length = 12 := by cases a <;> rfl
    have h3 : (intro_texts a).length = 12 := by cases a <;> rfl
    have h4 : title_variations.length = 8 := by rfl
    have h5 : cta_button_texts.length = 10 := by rfl
    have h6 : cta_headers.length = 10 := by rfl
    rw [h1, h2, h3, h4, h5, h6]
    refine ⟨⟨by omega, by omega⟩, ⟨by omega, by omega⟩, ⟨by omega, by omega⟩,
      ⟨by omega, by omega⟩, ⟨by omega, by omega⟩, ⟨by omega, by omega⟩⟩

/-- Witness for `text_variation_determinism_and_rotation`: September 22 and
September 28 of 2025 lie in the same ISO week and receive identical text. -/
theorem text_variation_determinism_witness :
    isoWeek ⟨2025, 9, 22⟩ = isoWeek ⟨2025, 9, 28⟩ ∧
    get_dynamic_text_variations ⟨2025, 9, 22⟩ true =
      get_dynamic_text_variations ⟨2025, 9, 28⟩ true :=
  ⟨by decide,
   text_variation_determinism_and_rotation.1 ⟨2025, 9, 22⟩ ⟨2025, 9, 28⟩ true (by decide)⟩

/-- A malformed schedule row: two cells only. -/
def badRow : List (List Char) := [strL "Varsity Golf", strL "vs. Hawks"]

/-- The game `processRow` builds from `sampleRow`. -/
def sampleGame : Game :=
  ⟨strL "Varsity Soccer", strL "Eagles", strL "Sep 22 2025", strL "4:00 PM",
   strL "Home Field", true, strL "soccer"⟩

/-- Claim C6: a row with fewer than six cells, or whose normalized date
token parses under neither accepted format, is skipped while the rest of
the batch is processed unchanged (the row loop is total: nothing
propagates), and every row that does produce a game still contributes it to
the output. -/
theorem unparseable_rows_skipped (s e : Date)
    (pre post : List (List (List Char))) (r : List (List Char))
    (h : r.length < 6 ∨ parseGameDate (normalizeDate (r.getD 2 [])) = none) :
    processRows s e (pre ++ r :: post) = processRows s e (pre ++ post) ∧
    ∀ rows r' g, r' ∈ rows → processRow s e r' = some g →
      g ∈ processRows s e rows := by
  constructor
  · have hnone : processRow s e r = none := by
      unfold processRow
      rcases h with h | h
      · rw [if_pos h]
      · split
        · rfl
        · simp only [h]
    simp [processRows, List.filterMap_append, List.filterMap_cons, hnone]
  · intro rows r' g hr hg
    simpa [processRows, List.mem_filterMap] using ⟨r', hr, hg⟩

/-- Witness for `unparseable_rows_skipped`: a two-cell row among well-formed
rows is dropped without disturbing the sample game, which stays in the
output. -/
theorem unparseable_rows_skipped_witness :
    (badRow.length < 6 ∨ parseGameDate (normalizeDate (badRow.getD 2 [])) = none) ∧
    processRows ⟨2025, 9, 22⟩ ⟨2025, 9, 28⟩ ([sampleRow] ++ badRow :: []) =
      processRows ⟨2025, 9, 22⟩ ⟨2025, 9, 28⟩ ([sampleRow] ++ []) ∧
    sampleGame ∈ processRows ⟨2025, 9, 22⟩ ⟨2025, 9, 28⟩ [sampleRow] :=
  ⟨Or.inl (by decide),
   (unparseable_rows_skipped _ _ [sampleRow] [] badRow (Or.inl (by decide))).1,
   (unparseable_rows_skipped _ _ [sampleRow] [] badRow (Or.inl (by decide))).2
     [sampleRow] sampleRow sampleGame (by decide) (by decide)⟩

/-- A sample VEVENT with a date-time start of September 24, 2025. -/
def sampleVEvent : VEvent :=
  ⟨some (strL "Fall Concert"), some (strL "Schaden Theater"),
   some (.dateTime ⟨2025, 9, 24⟩ 19 0)⟩

/-- Claim C7: in both parsers the inclusive range filter decides membership:
a schedule row with a parseable date, or a VEVENT with a start, contributes
an event exactly when start <= its date <= end -- both boundary dates
included, everything strictly outside excluded. -/
theorem range_filter_inclusive :
    (∀ (s e : Date) (r : List (List Char)) (d : Date),
      6 ≤ r.length → parseGameDate (normalizeDate (r.getD 2 [])) = some d →
      ((processRow s e r).isSome ↔ (dateLe s d = true ∧ dateLe d e = true))) ∧
    (∀ (s e : Date) (comp : VEvent) (dt : DtStart),
      comp.dtstart = some dt →
      ((processVEvent s e comp).isSome ↔
        (dateLe s dt.date = true ∧ dateLe dt.date e = true))) := by
  constructor
  · intro s e r d hlen hp
    unfold processRow
    rw [if_neg (by omega)]
    simp only [hp]
    split <;> rename_i hc
    · simp [Bool.and_eq_true] at hc
      simp [hc]
    · simp [Bool.and_eq_true] at hc
      simp only [Option.isSome_none, Bool.false_eq_true, false_iff]
      intro ⟨h1, h2⟩
      simp [hc h1] at h2
  · intro s e comp dt hdt
    unfold processVEvent
    simp only [hdt]
    split <;> rename_i hc
    · simp [Bool.and_eq_true] at hc
      simp [hc]
    · simp [Bool.and_eq_true] at hc
      simp only [Option.isSome_none, Bool.false_eq_true, false_iff]
      intro ⟨h1, h2⟩
      simp [hc h1] at h2

/-- Witness for `range_filter_inclusive`: the sample row dated on the range
start is kept, and the sample VEVENT strictly inside the range is kept. -/
theorem range_filter_inclusive_witness :
    (6 ≤ sampleRow.length ∧
      parseGameDate (normalizeDate (sampleRow.getD 2 [])) = some ⟨2025, 9, 22⟩ ∧
      ((processRow ⟨2025, 9, 22⟩ ⟨2025, 9, 28⟩ sampleRow).isSome ↔
        (dateLe ⟨2025, 9, 22⟩ ⟨2025, 9, 22⟩ = true ∧
          dateLe ⟨2025, 9, 22⟩ ⟨2025, 9, 28⟩ = true))) ∧
    (sampleVEvent.dtstart = some (.dateTime ⟨2025, 9, 24⟩ 19 0) ∧
      ((processVEvent ⟨2025, 9, 22⟩ ⟨2025, 9, 28⟩ sampleVEvent).isSome ↔
        (dateLe ⟨2025, 9, 22⟩ (DtStart.dateTime ⟨2025, 9, 24⟩ 19 0).date = true ∧
          dateLe (DtStart.dateTime ⟨2025, 9, 24⟩ 19 0).date ⟨2025, 9, 28⟩ = true))) :=
  ⟨⟨by decide, by decide,
    range_filter_inclusive.1 _ _ sampleRow ⟨2025, 9, 22⟩ (by decide) (by decide)⟩,
   ⟨by decide,
    range_filter_inclusive.2 _ _ sampleVEvent (.dateTime ⟨2025, 9, 24⟩ 19 0) (by decide)⟩⟩

/-- An ASCII digit character is not a hyphen. -/
theorem isDigit_ne_hyphen {c : Char} (h : c.isDigit = true) : ¬c = '-' := by
  intro he
  subst he
  exact absurd h (by decide)

/-- An ASCII digit character is not whitespace. -/
theorem isDigit_not_ws {c : Char} (h : c.isDigit = true) : c.isWhitespace = false := by
  cases hw : c.isWhitespace
  · rfl
  · exfalso
    simp [Char.isWhitespace] at hw
    rcases hw with ((rfl | rfl) | rfl) | rfl <;> exact absurd h (by decide)

/-- `dropWhile` leaves a list alone when the predicate holds nowhere. -/
theorem dropWhile_eq_self_of_all {p : Char → Bool} {l : List Char}
    (h : ∀ c ∈ l, p c = false) : l.dropWhile p = l := by
  cases l with
  | nil => rfl
  | cons a t => simp [List.dropWhile, h a (List.mem_cons_self a t)]

/-- `pyStrip` leaves a whitespace-free list alone. -/
theorem pyStrip_of_no_ws {l : List Char}
    (h : ∀ c ∈ l, c.isWhitespace = false) : pyStrip l = l := by
  unfold pyStrip
  rw [dropWhile_eq_self_of_all h,
    dropWhile_eq_self_of_all (fun c hc => h c (List.mem_reverse.mp hc)),
    List.reverse_reverse]

/-- `takeWhile` walks through a first block on which the predicate holds. -/
theorem takeWhile_append_of_all {p : Char → Bool} {l1 l2 : List Char}
    (h : ∀ c ∈ l1, p c = true) : (l1 ++ l2).takeWhile p = l1 ++ l2.takeWhile p := by
  induction l1 with
  | nil => rfl
  | cons a t ih =>
    simp [List.takeWhile_cons, h a (List.mem_cons_self a t),
      ih (fun c hc => h c (List.mem_cons_of_mem a hc))]

/-- The range fix leaves short tokens alone. -/
theorem rangeFix_short {s : List Char} (h : s.length ≤ 15) : rangeFix s = s := by
  unfold rangeFix
  rw [if_neg]
  intro hc
  omega

/-- The range fix of a long hyphenated token keeps the part before the
hyphen (here: a hyphen-free, whitespace-free head). -/
theorem rangeFix_range {h1 rest : List Char}
    (hc : ∀ c ∈ h1, ¬c = '-' ∧ c.isWhitespace = false)
    (hlen : 15 < (h1 ++ '-' :: rest).length) :
    rangeFix (h1 ++ '-' :: rest) = h1 := by
  unfold rangeFix
  rw [if_pos]
  · rw [takeWhile_append_of_all (fun c hcm => by
      simp only [decide_eq_true_eq]
      exact (hc c hcm).1)]
    have : ('-' :: rest).takeWhile (fun c => decide ¬c = '-') = [] := by
      simp [List.takeWhile_cons]
    rw [this, List.append_nil]
    exact pyStrip_of_no_ws (fun c hcm => (hc c hcm).2)
  · constructor
    · simp
    · exact hlen

/-- The concatenated-date fix splits a three-letter head from a 5, 6 or
7 digit tail at the documented day width. -/
theorem digitFix_split {m d : List Char} (hm : m.length = 3)
    (hd : ∀ c ∈ d, c.isDigit = true) (k : Nat)
    (hk : d.length = 5 ∧ k = 1 ∨ d.length = 6 ∧ k = 2 ∨ d.length = 7 ∧ k = 2) :
    digitFix (m ++ d) = m ++ ' ' :: d.take k ++ ' ' :: d.drop k := by
  have hdrop : (m ++ d).drop 3 = d := by rw [← hm]; exact List.drop_left m d
  have htake : (m ++ d).take 3 = m := by rw [← hm]; exact List.take_left m d
  have hlen : (m ++ d).length = 3 + d.length := by rw [List.length_append, hm]
  have hne : d.isEmpty = false := by
    have hnz : d.length ≠ 0 := by
      rcases hk with ⟨h, _⟩ | ⟨h, _⟩ | ⟨h, _⟩ <;> omega
    cases d with
    | nil => simp at hnz
    | cons a t => rfl
  have hdig : pyIsdigit d = true := by
    unfold pyIsdigit
    rw [hne]
    simp only [Bool.not_false, Bool.true_and, List.all_eq_true]
    exact fun c hc => hd c hc
  unfold digitFix
  rw [hdrop, htake, hlen, if_pos]
  · rcases hk with ⟨hl, hkv⟩ | ⟨hl, hkv⟩ | ⟨hl, hkv⟩ <;> subst hkv <;> simp [hl]
  · exact ⟨by omega, hdig⟩

/-- Claim C5: a token of shape three-letter-month followed directly by a
digit run is split into month, day and four-digit year by the total digit
count (6: two-digit day; 5: one-digit day; 7: the leading two digits become
the day), with spaces inserted; and a token with a hyphen that exceeds the
range-length threshold keeps only the (stripped) part before the hyphen as
the effective date. -/
theorem date_token_normalization (m d rest : List Char)
    (hm : m.length = 3)
    (hmc : ∀ c ∈ m, ¬c = '-' ∧ c.isWhitespace = false)
    (hd : ∀ c ∈ d, c.isDigit = true) :
    (d.length = 6 → normalizeDate (m ++ d) = m ++ ' ' :: d.take 2 ++ ' ' :: d.drop 2) ∧
    (d.length = 5 → normalizeDate (m ++ d) = m ++ ' ' :: d.take 1 ++ ' ' :: d.drop 1) ∧
    (d.length = 7 → normalizeDate (m ++ d) = m ++ ' ' :: d.take 2 ++ ' ' :: d.drop 2) ∧
    (d.length = 6 → 6 ≤ rest.length →
      normalizeDate ((m ++ d) ++ '-' :: rest) = m ++ ' ' :: d.take 2 ++ ' ' :: d.drop 2) := by
  refine ⟨fun h6 => ?_, fun h5 => ?_, fun h7 => ?_, fun h6 hr => ?_⟩
  · rw [normalizeDate, rangeFix_short (by rw [List.length_append]; omega),
      digitFix_split hm hd 2 (Or.inr (Or.inl ⟨h6, rfl⟩))]
  · rw [normalizeDate, rangeFix_short (by rw [List.length_append]; omega),
      digitFix_split hm hd 1 (Or.inl ⟨h5, rfl⟩)]
  · rw [normalizeDate, rangeFix_short (by rw [List.length_append]; omega),
      digitFix_split hm hd 2 (Or.inr (Or.inr ⟨h7, rfl⟩))]
  · rw [normalizeDate, rangeFix_range
      (fun c hcm => by
        rcases List.mem_append.mp hcm with hin | hin
        · exact hmc c hin
        · exact ⟨isDigit_ne_hyphen (hd c hin), isDigit_not_ws (hd c hin)⟩)
      (by simp only [List.length_append, List.length_cons]; omega),
      digitFix_split hm hd 2 (Or.inr (Or.inl ⟨h6, rfl⟩))]

/-- Witness for `date_token_normalization`: `Sep222025` becomes
`Sep 22 2025`, and the range token `Oct202025-Oct212025` becomes
`Oct 20 2025`. -/
theorem date_token_normalization_witness :
    (strL "Sep").length = 3 ∧
    normalizeDate (strL "Sep" ++ strL "222025") = strL "Sep 22 2025" ∧
    normalizeDate ((strL "Oct" ++ strL "202025") ++ '-' :: strL "Oct212025") =
      strL "Oct 20 2025" := by
  refine ⟨by decide, ?_, ?_⟩
  · have h := (date_token_normalization (strL "Sep") (strL "222025") []
      (by decide) (by decide) (by decide)).1 (by decide)
    simpa using h
  · have h := ((date_token_normalization (strL "Oct") (strL "202025")
      (strL "Oct212025") (by decide) (by decide) (by decide)).2.2.2) (by decide) (by decide)
    simpa using h

/-- `eatSpaces` on a leading space leaves the whitespace-stripped rest. -/
theorem eatSpaces_cons_space (l : List Char) :
    eatSpaces (' ' :: l) = some (l.dropWhile Char.isWhitespace) := rfl

/-- The `'%b %d %Y'` continuation succeeds on a space followed by exactly a
four-digit year. -/
theorem afterDayMonDY_spec {dv yv : Nat} {yearStr : List Char}
    (hys : yearStr.length = 4) (hyd : ∀ c ∈ yearStr, c.isDigit = true)
    (hyv : digitsToNat yearStr = yv) :
    afterDayMonDY (dv, ' ' :: yearStr) = some (dv, yv, []) := by
  have hdw : yearStr.dropWhile Char.isWhitespace = yearStr :=
    dropWhile_eq_self_of_all (fun c hc => isDigit_not_ws (hyd c hc))
  have htk : yearStr.take 4 = yearStr := by rw [← hys]; exact List.take_length yearStr
  have hdr : yearStr.drop 4 = [] := by rw [← hys]; exact List.drop_length yearStr
  have hy4 : eatYear4 yearStr = some (yv, []) := by
    unfold eatYear4
    rw [if_pos]
    · rw [htk, hdr, hyv]
    · constructor
      · omega
      · rw [htk]
        exact List.all_eq_true.mpr (fun c hc => hyd c hc)
  unfold afterDayMonDY
  simp only [eatSpaces_cons_space, hdw, hy4]

/-- The whole `'%b %d %Y'` parse, given that the day token's first regex
candidate consumes the whole day and leaves the space and the year. -/
theorem parseMonDY_tail
    (mon dayRaw yearStr : List Char) (mo dv yv : Nat)
    (extra : List (Nat × List Char))
    (hm3 : mon.length = 3)
    (hmon : lookupMonth (pyLower mon) = some mo)
    (htd : tryDay (dayRaw ++ ' ' :: yearStr) = (dv, ' ' :: yearStr) :: extra)
    (hhead : ∃ c t, dayRaw = c :: t ∧ c.isWhitespace = false)
    (hys : yearStr.length = 4) (hyd : ∀ c ∈ yearStr, c.isDigit = true)
    (hyv : digitsToNat yearStr = yv) (hyr : 1 ≤ yv)
    (hdm : dv ≤ daysInMonth yv mo) :
    parseMonDY (mon ++ ' ' :: (dayRaw ++ ' ' :: yearStr)) = some ⟨yv, mo, dv⟩ := by
  obtain ⟨c, t, rfl, hcw⟩ := hhead
  have htake : (mon ++ ' ' :: ((c :: t) ++ ' ' :: yearStr)).take 3 = mon := by
    rw [← hm3]; exact List.take_left mon _
  have hdrop : (mon ++ ' ' :: ((c :: t) ++ ' ' :: yearStr)).drop 3 =
      ' ' :: ((c :: t) ++ ' ' :: yearStr) := by
    rw [← hm3]; exact List.drop_left mon _
  have heat1 : eatSpaces (' ' :: ((c :: t) ++ ' ' :: yearStr)) =
      some ((c :: t) ++ ' ' :: yearStr) := by
    rw [eatSpaces_cons_space]
    simp [List.dropWhile_cons, hcw]
  have hay : afterDayMonDY (dv, ' ' :: yearStr) = some (dv, yv, []) :=
    afterDayMonDY_spec hys hyd hyv
  unfold parseMonDY
  rw [htake, hmon]
  simp only [hdrop, heat1, htd, List.findSome?_cons, hay, mkValidDate]
  simp [hyr, hdm]

/-- `digitFix` leaves a token alone when the tail after the first three
characters is not a digit run. -/
theorem digitFix_of_not_digits {s : List Char}
    (h : pyIsdigit (s.drop 3) = false) : digitFix s = s := by
  unfold digitFix
  rw [if_neg]
  intro hc
  rw [h] at hc
  exact Bool.false_ne_true hc.2

/-- Claim C10: an already-normalized token `Mon D YYYY` (month abbreviation,
one- or two-digit day with value 1..31 denoting a valid day of that month,
four-digit year of value at least 1) passes through the normalization step
unchanged, and parsing it yields exactly the calendar date it denotes. -/
theorem normalization_idempotent_on_normalized
    (mon dayStr yearStr : List Char) (mo dv yv : Nat)
    (hm3 : mon.length = 3)
    (hmon : lookupMonth (pyLower mon) = some mo)
    (hday : (dayStr = [Char.ofNat (48 + dv)] ∧ 1 ≤ dv ∧ dv ≤ 9) ∨
            (dayStr = [Char.ofNat (48 + dv / 10), Char.ofNat (48 + dv % 10)] ∧
              1 ≤ dv ∧ dv ≤ 31))
    (hys : yearStr.length = 4) (hyd : ∀ c ∈ yearStr, c.isDigit = true)
    (hyv : digitsToNat yearStr = yv) (hyr : 1 ≤ yv)
    (hdm : dv ≤ daysInMonth yv mo) :
    normalizeDate (mon ++ ' ' :: (dayStr ++ ' ' :: yearStr)) =
      mon ++ ' ' :: (dayStr ++ ' ' :: yearStr) ∧
    parseGameDate (mon ++ ' ' :: (dayStr ++ ' ' :: yearStr)) =
      some ⟨yv, mo, dv⟩ := by
  have hdlen : dayStr.length = 1 ∨ dayStr.length = 2 := by
    rcases hday with ⟨rfl, _⟩ | ⟨rfl, _⟩
    · left; rfl
    · right; rfl
  have hnorm : normalizeDate (mon ++ ' ' :: (dayStr ++ ' ' :: yearStr)) =
      mon ++ ' ' :: (dayStr ++ ' ' :: yearStr) := by
    have hlen : (mon ++ ' ' :: (dayStr ++ ' ' :: yearStr)).length ≤ 15 := by
      simp only [List.length_append, List.length_cons, hm3, hys]
      omega
    have hdrop : (mon ++ ' ' :: (dayStr ++ ' ' :: yearStr)).drop 3 =
        ' ' :: (dayStr ++ ' ' :: yearStr) := by
      rw [← hm3]; exact List.drop_left mon _
    rw [normalizeDate, rangeFix_short hlen, digitFix_of_not_digits]
    rw [hdrop]
    simp [pyIsdigit]
  refine ⟨hnorm, ?_⟩
  have hp : parseMonDY (mon ++ ' ' :: (dayStr ++ ' ' :: yearStr)) =
      some ⟨yv, mo, dv⟩ := by
    rcases hday with ⟨rfl, h1, h9⟩ | ⟨rfl, h1, h31⟩
    · interval_cases dv <;>
        exact parseMonDY_tail mon _ yearStr mo _ yv _ hm3 hmon rfl
          ⟨_, _, rfl, by decide⟩ hys hyd hyv hyr hdm
    · interval_cases dv <;>
        exact parseMonDY_tail mon _ yearStr mo _ yv _ hm3 hmon rfl
          ⟨_, _, rfl, by decide⟩ hys hyd hyv hyr hdm
  simp [parseGameDate, hp]

/-- Witness for `normalization_idempotent_on_normalized`: the normalized
token `Sep 22 2025` is left unchanged and parses to September 22, 2025. -/
theorem normalization_idempotent_witness :
    lookupMonth (pyLower (strL "Sep")) = some 9 ∧
    normalizeDate (strL "Sep" ++ ' ' :: (strL "22" ++ ' ' :: strL "2025")) =
      strL "Sep" ++ ' ' :: (strL "22" ++ ' ' :: strL "2025") ∧
    parseGameDate (strL "Sep" ++ ' ' :: (strL "22" ++ ' ' :: strL "2025")) =
      some ⟨2025, 9, 22⟩ :=
  ⟨by decide,
   (normalization_idempotent_on_normalized (strL "Sep") (strL "22") (strL "2025")
     9 22 2025 (by decide) (by decide)
     (Or.inr ⟨by decide, by decide, by decide⟩)
     (by decide) (by decide) (by decide) (by decide) (by decide)).1,
   (normalization_idempotent_on_normalized (strL "Sep") (strL "22") (strL "2025")
     9 22 2025 (by decide) (by decide)
     (Or.inr ⟨by decide, by decide, by decide⟩)
     (by decide) (by decide) (by decide) (by decide) (by decide)).2⟩

/-- Two distinct members force length at least two. -/
theorem two_mem_le_length {l : List Nat} {a b : Nat}
    (ha : a ∈ l) (hb : b ∈ l) (hne : a ≠ b) : 2 ≤ l.length := by
  cases l with
  | nil => cases ha
  | cons x t =>
    cases t with
    | nil =>
      rcases List.mem_singleton.mp ha with rfl
      rcases List.mem_singleton.mp hb with rfl
      exact absurd rfl hne
    | cons y t2 => simp [List.length_cons]

/-- On a sorted list, some consecutive pair strictly straddles `n` exactly
when `n` is absent and has a strictly smaller and a strictly larger
member. -/
theorem straddle_iff {l : List Nat} (hs : l.Sorted (· ≤ ·)) (n : Nat) :
    straddle l n = true ↔
      n ∉ l ∧ (∃ a ∈ l, a < n) ∧ (∃ b ∈ l, n < b) := by
  induction l with
  | nil => simp [straddle]
  | cons a t ih =>
    cases t with
    | nil =>
      simp only [straddle, Bool.false_eq_true, false_iff]
      rintro ⟨_, ⟨a', ha'm, ha'⟩, ⟨b', hb'm, hb'⟩⟩
      rcases List.mem_singleton.mp ha'm with rfl
      rcases List.mem_singleton.mp hb'm with rfl
      omega
    | cons b t2 =>
      have hrest : ∀ x ∈ b :: t2, a ≤ x := (List.sorted_cons.mp hs).1
      have hs2 : (b :: t2).Sorted (· ≤ ·) := (List.sorted_cons.mp hs).2
      have ht2 : ∀ x ∈ t2, b ≤ x := (List.sorted_cons.mp hs2).1
      constructor
      · intro h
        simp only [straddle, Bool.or_eq_true, Bool.and_eq_true,
          decide_eq_true_eq] at h
        rcases h with ⟨han, hnb⟩ | h
        · refine ⟨?_, ⟨a, List.mem_cons_self a _, han⟩,
            ⟨b, List.mem_cons_of_mem a (List.mem_cons_self b _), hnb⟩⟩
          intro hmem
          rcases List.mem_cons.mp hmem with rfl | hmem2
          · omega
          · rcases List.mem_cons.mp hmem2 with rfl | hmem3
            · omega
            · have := ht2 n hmem3
              omega
        · obtain ⟨hnotin, ⟨a', ha'm, ha'⟩, ⟨b', hb'm, hb'⟩⟩ := (ih hs2).mp h
          refine ⟨?_, ⟨a', List.mem_cons_of_mem a ha'm, ha'⟩,
            ⟨b', List.mem_cons_of_mem a hb'm, hb'⟩⟩
          intro hmem
          rcases List.mem_cons.mp hmem with rfl | hmem2
          · have := hrest a' ha'm
            omega
          · exact hnotin hmem2
      · rintro ⟨hnotin, ⟨a', ha'm, ha'⟩, ⟨b', hb'm, hb'⟩⟩
        simp only [straddle, Bool.or_eq_true, Bool.and_eq_true,
          decide_eq_true_eq]
        by_cases hnb : n < b
        · left
          refine ⟨?_, hnb⟩
          rcases List.mem_cons.mp ha'm with rfl | h2
          · exact ha'
          · have : b ≤ a' := by
              rcases List.mem_cons.mp h2 with rfl | h3
              · exact le_rfl
              · exact ht2 a' h3
            omega
        · right
          apply (ih hs2).mpr
          have hnab : n ≠ b := by
            intro he
            subst he
            exact hnotin (List.mem_cons_of_mem a (List.mem_cons_self n _))
          refine ⟨fun hm => hnotin (List.mem_cons_of_mem a hm),
            ⟨b, List.mem_cons_self b _, by omega⟩, ⟨b', ?_, hb'⟩⟩
          rcases List.mem_cons.mp hb'm with rfl | h2
          · have := hrest b (List.mem_cons_self b _)
            omega
          · exact h2

/-- The loop days of `get_missing_weekdays` are exactly the ordinals of the
inclusive range. -/
theorem mem_day_range (ns ne n : Nat) :
    n ∈ (List.range (ne + 1 - ns)).map (ns + ·) ↔ ns ≤ n ∧ n ≤ ne := by
  simp only [List.mem_map, List.mem_range]
  constructor
  · rintro ⟨i, hi, rfl⟩
    omega
  · rintro ⟨h1, h2⟩
    exact ⟨n - ns, by omega, by omega⟩

/-- `List.contains` agrees with membership for the string keys. -/
theorem keys_contains_iff (l : List (List Char)) (x : List Char) :
    l.contains x = true ↔ x ∈ l := by
  simp [List.elem_iff]

/-- Claim C8: under well-formed dictionary keys (each a `'%b %d %Y'` string
in the canonical `strftime` form of its date), a string is flagged missing
by `get_missing_weekdays` exactly when it is the formatted form of a
weekday ordinal inside [start, end] that is not an event day itself and has
both a strictly earlier and a strictly later event day -- so gaps at the
very start or end of the range are never flagged; and with fewer than two
parseable event dates nothing is flagged at all. -/
theorem missing_weekdays_interior_only
    (keys : List (List Char)) (s e : Date) (x : List Char)
    (hkeys : ∀ k ∈ keys, ∃ dk, parseMonDY k = some dk ∧ fmtBDY dk = k ∧
      fromOrd (toOrd dk) = dk) :
    (x ∈ get_missing_weekdays keys s e ↔
      ∃ n, toOrd s ≤ n ∧ n ≤ toOrd e ∧ weekdayOfOrd n < 5 ∧
        x = fmtBDY (fromOrd n) ∧ x ∉ keys ∧
        (∃ a ∈ (keys.filterMap parseMonDY).map toOrd, a < n) ∧
        (∃ b ∈ (keys.filterMap parseMonDY).map toOrd, n < b)) ∧
    ((keys.filterMap parseMonDY).length < 2 →
      get_missing_weekdays keys s e = []) := by
  have hsorted : (List.insertionSort (· ≤ ·)
      ((keys.filterMap parseMonDY).map toOrd)).Sorted (· ≤ ·) :=
    List.sorted_insertionSort _ _
  have hmemsort : ∀ m : Nat,
      m ∈ List.insertionSort (· ≤ ·) ((keys.filterMap parseMonDY).map toOrd) ↔
        m ∈ (keys.filterMap parseMonDY).map toOrd :=
    fun m => (List.perm_insertionSort _ _).mem_iff
  have hkey_of_gd : ∀ n : Nat, n ∈ (keys.filterMap parseMonDY).map toOrd →
      fmtBDY (fromOrd n) ∈ keys := by
    intro n hn
    obtain ⟨dk, hdkm, hton⟩ := List.mem_map.mp hn
    obtain ⟨k, hk, hpk⟩ := List.mem_filterMap.mp hdkm
    obtain ⟨dk', hpk', hfmt, hro⟩ := hkeys k hk
    rw [hpk] at hpk'
    injection hpk' with hdd
    subst hdd
    have hx : fmtBDY (fromOrd n) = k := by rw [← hton, hro, hfmt]
    rw [hx]
    exact hk
  constructor
  · constructor
    · intro hx
      simp only [get_missing_weekdays] at hx
      by_cases hl : ((keys.filterMap parseMonDY).map toOrd).length < 2
      · rw [if_pos hl] at hx
        exact absurd hx (List.not_mem_nil x)
      · rw [if_neg hl] at hx
        obtain ⟨n, hnf, hfx⟩ := List.mem_map.mp hx
        obtain ⟨hnd, hp⟩ := List.mem_filter.mp hnf
        rw [mem_day_range] at hnd
        simp only [Bool.and_eq_true, decide_eq_true_eq, Bool.not_eq_true'] at hp
        obtain ⟨⟨hwd, hcon⟩, hstr⟩ := hp
        have hxk : fmtBDY (fromOrd n) ∉ keys := by
          intro hmem
          have h1 := (keys_contains_iff keys (fmtBDY (fromOrd n))).mpr hmem
          rw [hcon] at h1
          exact Bool.false_ne_true h1
        obtain ⟨hnin, ⟨a, ham, ha⟩, ⟨b, hbm, hb⟩⟩ := (straddle_iff hsorted n).mp hstr
        rw [hmemsort] at ham hbm
        exact ⟨n, hnd.1, hnd.2, hwd, hfx.symm, hfx ▸ hxk,
          ⟨a, ham, ha⟩, ⟨b, hbm, hb⟩⟩
    · rintro ⟨n, hns, hne2, hwd, rfl, hxk, ⟨a, ham, ha⟩, ⟨b, hbm, hb⟩⟩
      simp only [get_missing_weekdays]
      have hl : ¬((keys.filterMap parseMonDY).map toOrd).length < 2 := by
        have h2 := two_mem_le_length ham hbm (by omega)
        omega
      rw [if_neg hl]
      apply List.mem_map.mpr
      refine ⟨n, ?_, rfl⟩
      apply List.mem_filter.mpr
      refine ⟨(mem_day_range _ _ _).mpr ⟨hns, hne2⟩, ?_⟩
      have hnin : n ∉ (keys.filterMap parseMonDY).map toOrd := by
        intro hn
        exact hxk (hkey_of_gd n hn)
      have hstr : straddle (List.insertionSort (· ≤ ·)
          ((keys.filterMap parseMonDY).map toOrd)) n = true := by
        apply (straddle_iff hsorted n).mpr
        exact ⟨fun hmem => hnin ((hmemsort n).mp hmem),
          ⟨a, (hmemsort a).mpr ham, ha⟩, ⟨b, (hmemsort b).mpr hbm, hb⟩⟩
      have hcon : keys.contains (fmtBDY (fromOrd n)) = false := by
        cases hc : keys.contains (fmtBDY (fromOrd n))
        · rfl
        · exact absurd ((keys_contains_iff _ _).mp hc) hxk
      simp only [Bool.and_eq_true, decide_eq_true_eq, Bool.not_eq_true']
      exact ⟨⟨hwd, hcon⟩, hstr⟩
  · intro h2
    simp only [get_missing_weekdays]
    rw [if_pos (by rw [List.length_map]; exact h2)]

/-- Event-day keys for Monday September 1 and Wednesday September 3, 2025. -/
def msKeys : List (List Char) := [strL "Sep 01 2025", strL "Sep 03 2025"]

/-- Witness for `missing_weekdays_interior_only`: with events on Monday
Sep 1 and Wednesday Sep 3 of 2025 in the Monday-Friday range Sep 1-5, the
characterization applies and only Tuesday Sep 2 is flagged (Thursday and
Friday, trailing the last event day, are not). -/
theorem missing_weekdays_witness :
    (∀ k ∈ msKeys, ∃ dk, parseMonDY k = some dk ∧ fmtBDY dk = k ∧
      fromOrd (toOrd dk) = dk) ∧
    (strL "Sep 02 2025" ∈ get_missing_weekdays msKeys ⟨2025, 9, 1⟩ ⟨2025, 9, 5⟩ ↔
      ∃ n, toOrd ⟨2025, 9, 1⟩ ≤ n ∧ n ≤ toOrd ⟨2025, 9, 5⟩ ∧ weekdayOfOrd n < 5 ∧
        strL "Sep 02 2025" = fmtBDY (fromOrd n) ∧ strL "Sep 02 2025" ∉ msKeys ∧
        (∃ a ∈ (msKeys.filterMap parseMonDY).map toOrd, a < n) ∧
        (∃ b ∈ (msKeys.filterMap parseMonDY).map toOrd, n < b)) ∧
    get_missing_weekdays msKeys ⟨2025, 9, 1⟩ ⟨2025, 9, 5⟩ = [strL "Sep 02 2025"] := by
  have hkeysProof : ∀ k ∈ msKeys, ∃ dk, parseMonDY k = some dk ∧ fmtBDY dk = k ∧
      fromOrd (toOrd dk) = dk := by
    intro k hk
    rcases List.mem_cons.mp hk with rfl | hk2
    · exact ⟨⟨2025, 9, 1⟩, by decide, by decide, by decide⟩
    · rcases List.mem_cons.mp hk2 with rfl | hk3
      · exact ⟨⟨2025, 9, 3⟩, by decide, by decide, by decide⟩
      · cases hk3
  exact ⟨hkeysProof,
    (missing_weekdays_interior_only msKeys ⟨2025, 9, 1⟩ ⟨2025, 9, 5⟩
      (strL "Sep 02 2025") hkeysProof).1,
    by decide⟩
